import Mathlib

/-!
Verification of the ParkingDirekt feature-flag evaluator, config store, QR
token validation and booking conflict check, as a shallow embedding of the
TypeScript sources (src/lib/featureFlags.ts, the config manager, the QR
utilities and the bookings route) in Lean.

Machine numbers are modelled as Nat/Int with explicit reduction modulo 2^32
where the source relies on 32-bit behaviour.  Stateful code (the in-process
caches and the ORM-backed store) is modelled by explicit state passing.
-/

set_option maxRecDepth 40000

/-! ### MD5 (the digest used by `crypto.createHash('md5')` in hashUserForRollout)

A faithful RFC 1321 implementation over `Nat`, with every word reduced
modulo 2^32.  Node's `hash.update(identifier)` treats the string as UTF-8.
-/

def w32mod : Nat := 4294967296

def addw (a b : Nat) : Nat := (a + b) % w32mod

/-- Bitwise complement of a 32-bit word (valid for `x < 2^32`). -/
def notw (x : Nat) : Nat := 4294967295 - x

/-- 32-bit left rotation. -/
def rotl (x s : Nat) : Nat := ((x <<< s) % w32mod) ||| (x >>> (32 - s))

/-- The RFC 1321 sine-derived constant table `T[i] = floor(abs(sin(i+1)) * 2^32)`. -/
def md5K : List Nat :=
  [3614090360, 3905402710, 606105819, 3250441966, 4118548399, 1200080426, 2821735955, 4249261313,
   1770035416, 2336552879, 4294925233, 2304563134, 1804603682, 4254626195, 2792965006, 1236535329,
   4129170786, 3225465664, 643717713, 3921069994, 3593408605, 38016083, 3634488961, 3889429448,
   568446438, 3275163606, 4107603335, 1163531501, 2850285829, 4243563512, 1735328473, 2368359562,
   4294588738, 2272392833, 1839030562, 4259657740, 2763975236, 1272893353, 4139469664, 3200236656,
   681279174, 3936430074, 3572445317, 76029189, 3654602809, 3873151461, 530742520, 3299628645,
   4096336452, 1126891415, 2878612391, 4237533241, 1700485571, 2399980690, 4293915773, 2240044497,
   1873313359, 4264355552, 2734768916, 1309151649, 4149444226, 3174756917, 718787259, 3951481745]

/-- The per-round shift amounts of RFC 1321. -/
def md5S : List Nat :=
  [7, 12, 17, 22, 7, 12, 17, 22, 7, 12, 17, 22, 7, 12, 17, 22,
   5, 9, 14, 20, 5, 9, 14, 20, 5, 9, 14, 20, 5, 9, 14, 20,
   4, 11, 16, 23, 4, 11, 16, 23, 4, 11, 16, 23, 4, 11, 16, 23,
   6, 10, 15, 21, 6, 10, 15, 21, 6, 10, 15, 21, 6, 10, 15, 21]

/-- One MD5 step (index `i` in 0..63) over message words `m` and state `(a,b,c,d)`. -/
def md5Round (m : List Nat) (st : Nat × Nat × Nat × Nat) (i : Nat) : Nat × Nat × Nat × Nat :=
  let (a, b, c, d) := st
  let (f, g) :=
    if i < 16 then ((b &&& c) ||| (notw b &&& d), i)
    else if i < 32 then ((d &&& b) ||| (notw d &&& c), (5 * i + 1) % 16)
    else if i < 48 then (b ^^^ c ^^^ d, (3 * i + 5) % 16)
    else (c ^^^ (b ||| notw d), (7 * i) % 16)
  let tmp := addw (addw (addw a f) (md5K.getD i 0)) (m.getD g 0)
  (d, addw b (rotl tmp (md5S.getD i 0)), b, c)

/-- Assemble 32-bit words from bytes, little-endian, four bytes per word. -/
def leWords : List Nat → List Nat
  | b0 :: b1 :: b2 :: b3 :: rest => (b0 + b1 * 256 + b2 * 65536 + b3 * 16777216) :: leWords rest
  | _ => []

/-- Process one 64-byte block. -/
def md5Block (st : Nat × Nat × Nat × Nat) (block : List Nat) : Nat × Nat × Nat × Nat :=
  let m := leWords block
  let (a, b, c, d) := (List.range 64).foldl (md5Round m) st
  let (a0, b0, c0, d0) := st
  (addw a0 a, addw b0 b, addw c0 c, addw d0 d)

/-- Fuel-indexed block processor; the fuel bounds the number of 64-byte blocks,
so any fuel of at least `bytes.length / 64 + 1` computes the full digest. -/
def md5Blocks : Nat → (Nat × Nat × Nat × Nat) → List Nat → Nat × Nat × Nat × Nat
  | 0, st, _ => st
  | _, st, [] => st
  | fuel + 1, st, bytes => md5Blocks fuel (md5Block st (bytes.take 64)) (bytes.drop 64)

/-- `k` little-endian bytes of `n`. -/
def leBytes : Nat → Nat → List Nat
  | 0, _ => []
  | k + 1, n => n % 256 :: leBytes k (n / 256)

/-- RFC 1321 padding: 0x80, zeros up to 56 mod 64, then the 64-bit little-endian bit length. -/
def md5Pad (msg : List Nat) : List Nat :=
  let len := msg.length
  let zeros := (120 - ((len + 1) % 64)) % 64
  msg ++ [128] ++ List.replicate zeros 0 ++ leBytes 8 (len * 8)

/-- The 16-byte MD5 digest of a byte message. -/
def md5Bytes (msg : List Nat) : List Nat :=
  let padded := md5Pad msg
  let (a, b, c, d) :=
    md5Blocks (padded.length / 64 + 1) (1732584193, 4023233417, 2562383102, 271733878) padded
  leBytes 4 a ++ leBytes 4 b ++ leBytes 4 c ++ leBytes 4 d

/-- UTF-8 encoding of a string, as `hash.update` applies to string input in Node. -/
def utf8Bytes (s : String) : List Nat :=
  s.data.flatMap fun ch =>
    let c := ch.toNat
    if c < 128 then [c]
    else if c < 2048 then [192 + c / 64, 128 + c % 64]
    else if c < 65536 then [224 + c / 4096, 128 + c / 64 % 64, 128 + c % 64]
    else [240 + c / 262144, 128 + c / 4096 % 64, 128 + c / 64 % 64, 128 + c % 64]

/-- Lowercase hex digit for a nibble. -/
def hexDigitChar (d : Nat) : Char :=
  if d < 10 then Char.ofNat (48 + d) else Char.ofNat (87 + d)

/-- The two hex characters of one byte, high nibble first. -/
def hexPairChars (b : Nat) : List Char := [hexDigitChar (b / 16), hexDigitChar (b % 16)]

/-- Lowercase hex rendering of a byte list, high nibble first: `digest('hex')`. -/
def bytesToHex (bs : List Nat) : String :=
  String.mk (bs.flatMap fun b => [hexDigitChar (b / 16), hexDigitChar (b % 16)])

/-- `crypto.createHash('md5').update(s).digest('hex')`. -/
def md5Hex (s : String) : String := bytesToHex (md5Bytes (utf8Bytes s))

/-! ### parseInt(·, 16) and the rollout hash -/

/-- The value of one hex digit character (case-insensitive), `none` otherwise. -/
def hexCharValue (c : Char) : Option Nat :=
  if 48 ≤ c.toNat ∧ c.toNat ≤ 57 then some (c.toNat - 48)
  else if 97 ≤ c.toNat ∧ c.toNat ≤ 102 then some (c.toNat - 87)
  else if 65 ≤ c.toNat ∧ c.toNat ≤ 70 then some (c.toNat - 55)
  else none

/-- JavaScript `parseInt(s, 16)`: parse the longest hex-digit prefix, NaN
(modelled as `none`) when there is none.  The source only ever applies it to
an 8-character hex digest substring, for which it always succeeds. -/
def jsParseIntHex (s : String) : Option Nat :=
  let ds := s.data.takeWhile (fun c => (hexCharValue c).isSome)
  if ds.isEmpty then none
  else some (ds.foldl (fun a c => 16 * a + ((hexCharValue c).getD 0)) 0)

/-- `s.substring(0, n)` for the ASCII strings this code applies it to. -/
def jsSubstringTo (s : String) (n : Nat) : String := String.mk (s.data.take n)

/-- `hashUserForRollout` from src/lib/featureFlags.ts:
`parseInt(md5hex(identifier).substring(0, 8), 16)`. -/
def hashUserForRollout (identifier : String) : Nat :=
  (jsParseIntHex (jsSubstringTo (md5Hex identifier) 8)).getD 0

/-- The digest read as a big-endian 128-bit number (the standard reading of the
hex digest).  Used to state which 32 bits of the hash the code extracts. -/
def beVal : List Nat → Nat
  | [] => 0
  | b :: t => b * 256 ^ t.length + beVal t

/-- The MD5 digest of a string as a 128-bit number. -/
def md5DigestNat (s : String) : Nat := beVal (md5Bytes (utf8Bytes s))

/-! ### JSON values and `JSON.parse` / `JSON.stringify`

The condition rule trees and json-typed config values flow through
`JSON.parse`.  Json numbers are modelled as rationals (JSON numbers are
decimal literals; float rounding is not observable in any property below).
String escapes `\uXXXX` that form lone surrogates are mapped to U+FFFD,
the one place the model cannot mirror JavaScript strings exactly.
-/

inductive Json where
  | null : Json
  | bool (b : Bool) : Json
  | num (q : Rat) : Json
  | str (s : String) : Json
  | arr (elems : List Json) : Json
  | obj (fields : List (String × Json)) : Json

def jsonWsChars : List Char := [' ', '\t', '\n', '\r']

def skipWs (l : List Char) : List Char := l.dropWhile (fun c => c ∈ jsonWsChars)

def isDigitChar (c : Char) : Bool := 48 ≤ c.toNat ∧ c.toNat ≤ 57

def digitsToNat (ds : List Char) : Nat := ds.foldl (fun a c => 10 * a + (c.toNat - 48)) 0

def lbrace : Char := Char.ofNat 123

def rbrace : Char := Char.ofNat 125

/-- Parse the body of a JSON string literal after the opening quote, returning
the decoded characters and the remainder after the closing quote. -/
def parseStringBody : List Char → Option (List Char × List Char)
  | [] => none
  | '"' :: rest => some ([], rest)
  | '\\' :: 'u' :: a :: b :: c :: d :: rest =>
    match hexCharValue a, hexCharValue b, hexCharValue c, hexCharValue d with
    | some va, some vb, some vc, some vd =>
      let code := ((va * 16 + vb) * 16 + vc) * 16 + vd
      let ch := if 55296 ≤ code ∧ code ≤ 57343 then Char.ofNat 65533 else Char.ofNat code
      (parseStringBody rest).map (fun (cs, rem) => (ch :: cs, rem))
    | _, _, _, _ => none
  | '\\' :: e :: rest =>
    let dec : Option Char :=
      if e = '"' then some '"'
      else if e = '\\' then some '\\'
      else if e = '/' then some '/'
      else if e = 'b' then some (Char.ofNat 8)
      else if e = 'f' then some (Char.ofNat 12)
      else if e = 'n' then some '\n'
      else if e = 'r' then some '\r'
      else if e = 't' then some '\t'
      else none
    match dec with
    | some ch => (parseStringBody rest).map (fun (cs, rem) => (ch :: cs, rem))
    | none => none
  | c :: rest =>
    if c.toNat < 32 then none
    else (parseStringBody rest).map (fun (cs, rem) => (c :: cs, rem))

/-- Parse a JSON number per RFC 8259: `-?(0|[1-9][0-9]*)(\.[0-9]+)?([eE][+-]?[0-9]+)?`. -/
def parseJsonNumber (l : List Char) : Option (Rat × List Char) :=
  let (neg, l1) := match l with
    | '-' :: t => (true, t)
    | _ => (false, l)
  let intDigits := l1.takeWhile isDigitChar
  let l2 := l1.dropWhile isDigitChar
  if intDigits.isEmpty then none
  else if intDigits.length > 1 ∧ intDigits.headD '0' = '0' then none
  else
    let (fracDigits, l3) := match l2 with
      | '.' :: t => (t.takeWhile isDigitChar, t.dropWhile isDigitChar)
      | _ => ([], l2)
    if l2.headD ' ' = '.' ∧ fracDigits.isEmpty then none
    else
      let expPart : Option (Int × List Char) := match l3 with
        | 'e' :: t | 'E' :: t =>
          let (esign, t1) := match t with
            | '+' :: u => ((1 : Int), u)
            | '-' :: u => ((-1 : Int), u)
            | _ => ((1 : Int), t)
          let eds := t1.takeWhile isDigitChar
          if eds.isEmpty then none else some (esign * (digitsToNat eds : Int), t1.dropWhile isDigitChar)
        | _ => some (0, l3)
      match expPart with
      | none => none
      | some (e, rest) =>
        let mantissa : Int := (digitsToNat intDigits * 10 ^ fracDigits.length + digitsToNat fracDigits : Nat)
        let signed : Int := if neg then -mantissa else mantissa
        let scale : Int := e - (fracDigits.length : Int)
        let value : Rat :=
          if 0 ≤ scale then ((signed * 10 ^ scale.toNat : Int) : Rat)
          else mkRat signed (10 ^ (-scale).toNat)
        some (value, rest)

mutual

/-- Fuel-indexed recursive-descent JSON value parser.  Any fuel of at least the
input length parses exactly the RFC 8259 grammar accepted by `JSON.parse`. -/
def parseJsonVal : Nat → List Char → Option (Json × List Char)
  | 0, _ => none
  | fuel + 1, l =>
    match skipWs l with
    | 'n' :: 'u' :: 'l' :: 'l' :: rest => some (Json.null, rest)
    | 't' :: 'r' :: 'u' :: 'e' :: rest => some (Json.bool true, rest)
    | 'f' :: 'a' :: 'l' :: 's' :: 'e' :: rest => some (Json.bool false, rest)
    | '"' :: rest => (parseStringBody rest).map (fun (cs, rem) => (Json.str (String.mk cs), rem))
    | '[' :: rest =>
      (match skipWs rest with
       | ']' :: rem => some (Json.arr [], rem)
       | _ => (parseJsonArrayItems fuel rest).map (fun (xs, rem) => (Json.arr xs, rem)))
    | c :: rest =>
      if c = lbrace then
        match skipWs rest with
        | d :: rem =>
          if d = rbrace then some (Json.obj [], rem)
          else (parseJsonObjectItems fuel rest).map (fun (ps, rem) => (Json.obj ps, rem))
        | [] => none
      else (parseJsonNumber (c :: rest)).map (fun (q, rem) => (Json.num q, rem))
    | [] => none

/-- Comma-separated JSON values up to a closing bracket. -/
def parseJsonArrayItems : Nat → List Char → Option (List Json × List Char)
  | 0, _ => none
  | fuel + 1, l =>
    match parseJsonVal fuel l with
    | none => none
    | some (j, rest) =>
      match skipWs rest with
      | ',' :: rest2 => (parseJsonArrayItems fuel rest2).map (fun (xs, rem) => (j :: xs, rem))
      | ']' :: rest2 => some ([j], rest2)
      | _ => none

/-- Comma-separated `"key": value` pairs up to a closing brace. -/
def parseJsonObjectItems : Nat → List Char → Option (List (String × Json) × List Char)
  | 0, _ => none
  | fuel + 1, l =>
    match skipWs l with
    | '"' :: rest =>
      match parseStringBody rest with
      | none => none
      | some (cs, rest2) =>
        match skipWs rest2 with
        | ':' :: rest3 =>
          match parseJsonVal fuel rest3 with
          | none => none
          | some (j, rest4) =>
            match skipWs rest4 with
            | ',' :: rest5 =>
              (parseJsonObjectItems fuel rest5).map
                (fun (ps, rem) => ((String.mk cs, j) :: ps, rem))
            | d :: rest5 =>
              if d = rbrace then some ([(String.mk cs, j)], rest5) else none
            | [] => none
        | _ => none
    | _ => none

end

/-- `JSON.parse`: a complete JSON text with only whitespace around it. -/
def parseJson (s : String) : Option Json :=
  match parseJsonVal (s.length + 1) s.data with
  | some (j, rest) => if (skipWs rest).isEmpty then some j else none
  | none => none

/-! #### JavaScript value helpers (truthiness, strict equality, String(·)) -/

/-- JavaScript truthiness of a JSON value. -/
def jsTruthy : Json → Bool
  | Json.null => false
  | Json.bool b => b
  | Json.num q => q ≠ 0
  | Json.str s => s ≠ ""
  | Json.arr _ => true
  | Json.obj _ => true

/-- Truthiness of a possibly-undefined value (`none` models `undefined`). -/
def jsTruthyU : Option Json → Bool
  | none => false
  | some j => jsTruthy j

/-- JavaScript strict equality `===` between JSON values.  Arrays and objects
compare by reference; in the data flow modelled here (freshly parsed condition
values against context fields) two such references are never identical, so the
structural cases are `false`. -/
def jsStrictEq : Json → Json → Bool
  | Json.null, Json.null => true
  | Json.bool a, Json.bool b => a == b
  | Json.num a, Json.num b => a == b
  | Json.str a, Json.str b => a == b
  | _, _ => false

/-- `===` where either side may be `undefined` (`undefined === undefined` holds). -/
def jsStrictEqU : Option Json → Option Json → Bool
  | none, none => true
  | some a, some b => jsStrictEq a b
  | _, _ => false

/-- Decimal rendering of the rationals that arise from JSON numbers (their
denominators divide a power of ten); other denominators fall back to a
fraction rendering that no modelled input produces. -/
def ratToString (q : Rat) : String :=
  if q.den = 1 then toString q.num
  else
    match (List.range 40).find? (fun k => (10 ^ k : Nat) % q.den = 0) with
    | some k =>
      let scaled : Int := q.num * ((10 ^ k : Nat) / q.den : Nat)
      let digits := toString scaled.natAbs
      let padded := String.mk (List.replicate (k + 1 - digits.length) '0') ++ digits
      let intPart := String.mk (padded.data.take (padded.length - k))
      let fracPart := String.mk ((padded.data.drop (padded.length - k)).reverse.dropWhile (· = '0')).reverse
      (if q.num < 0 then "-" else "") ++ intPart ++ (if fracPart = "" then "" else "." ++ fracPart)
    | none => toString q.num ++ "/" ++ toString q.den

/-- JavaScript `String(v)` on a JSON value (fuel covers array recursion). -/
def jsToString : Nat → Json → String
  | _, Json.null => "null"
  | _, Json.bool b => if b then "true" else "false"
  | _, Json.num q => ratToString q
  | _, Json.str s => s
  | 0, Json.arr _ => ""
  | fuel + 1, Json.arr xs =>
    String.intercalate "," (xs.map fun x => match x with
      | Json.null => ""
      | y => jsToString fuel y)
  | _, Json.obj _ => "[object Object]"

mutual

/-- Structural size of a JSON value, used as fuel for recursion over rule trees. -/
def jsonSize : Json → Nat
  | Json.null => 1
  | Json.bool _ => 1
  | Json.num _ => 1
  | Json.str _ => 1
  | Json.arr xs => 1 + jsonSizeList xs
  | Json.obj ps => 1 + jsonSizeObj ps

def jsonSizeList : List Json → Nat
  | [] => 0
  | x :: t => 1 + jsonSize x + jsonSizeList t

def jsonSizeObj : List (String × Json) → Nat
  | [] => 0
  | p :: t => 1 + jsonSize p.2 + jsonSizeObj t

end

/-- `String(v)` where `undefined` renders as "undefined". -/
def jsToStringU : Option Json → String
  | none => "undefined"
  | some j => jsToString (jsonSize j) j

/-- `haystack.includes(needle)` on strings. -/
def strContainsList (needle : List Char) : List Char → Bool
  | [] => needle.isEmpty
  | c :: rest => List.isPrefixOf needle (c :: rest) || strContainsList needle rest

def jsStrContains (haystack needle : String) : Bool := strContainsList needle.data haystack.data

/-- JSON string escaping for `JSON.stringify`. -/
def escapeJsonChar (c : Char) : List Char :=
  if c = '"' then ['\\', '"']
  else if c = '\\' then ['\\', '\\']
  else if c = '\n' then ['\\', 'n']
  else if c = '\r' then ['\\', 'r']
  else if c = '\t' then ['\\', 't']
  else if c.toNat = 8 then ['\\', 'b']
  else if c.toNat = 12 then ['\\', 'f']
  else if c.toNat < 32 then
    '\\' :: 'u' :: '0' :: '0' :: [hexDigitChar (c.toNat / 16), hexDigitChar (c.toNat % 16)]
  else [c]

/-- `JSON.stringify` (fuel covers the nesting depth). -/
def jsonStringify : Nat → Json → String
  | _, Json.null => "null"
  | _, Json.bool b => if b then "true" else "false"
  | _, Json.num q => ratToString q
  | _, Json.str s => "\"" ++ String.mk (s.data.flatMap escapeJsonChar) ++ "\""
  | 0, Json.arr _ => "[]"
  | 0, Json.obj _ => "\x7b\x7d"
  | fuel + 1, Json.arr xs =>
    "[" ++ String.intercalate "," (xs.map (jsonStringify fuel)) ++ "]"
  | fuel + 1, Json.obj ps =>
    "\x7b" ++
      String.intercalate ","
        (ps.map fun p =>
          "\"" ++ String.mk (p.1.data.flatMap escapeJsonChar) ++ "\":" ++ jsonStringify fuel p.2) ++
      "\x7d"

/-! ### Feature flag evaluator (src/lib/featureFlags.ts)

The `FeatureFlagContext` interface types `userId`, `role` and `email` as
optional strings; further fields are arbitrary.  `none` models an absent
property (`undefined`).  Custom fields are assumed not to shadow the three
typed properties.
-/

structure FeatureFlagContext where
  userId : Option String
  role : Option String
  email : Option String
  custom : List (String × Json)

/-- JavaScript `x || y` on an optional string: an empty string is falsy. -/
def truthyStr : Option String → Option String
  | none => none
  | some s => if s = "" then none else some s

/-- The identifier hashed for rollout: `context.userId || context.email || 'anonymous'`. -/
def rolloutIdentifier (ctx : FeatureFlagContext) : String :=
  match truthyStr ctx.userId with
  | some u => u
  | none =>
    match truthyStr ctx.email with
    | some e => e
    | none => "anonymous"

/-- The caller's rollout bucket `(hashUserForRollout(id) % 100) + 1` (evaluateConditions). -/
def userPercentage (ctx : FeatureFlagContext) : Nat :=
  hashUserForRollout (rolloutIdentifier ctx) % 100 + 1

/-- `getCacheKey`: the underscore-joined string
`flag_{flagKey}_{userId || 'no-user'}_{role || 'no-role'}_{environment}`. -/
def getCacheKey (flagKey : String) (ctx : FeatureFlagContext) (environment : String) : String :=
  "flag_" ++ flagKey ++ "_" ++ ((truthyStr ctx.userId).getD "no-user") ++ "_" ++
    ((truthyStr ctx.role).getD "no-role") ++ "_" ++ environment

/-- `context[field]` for a field name (the three typed properties, else customs). -/
def ctxGet (ctx : FeatureFlagContext) (field : String) : Option Json :=
  if field = "userId" then ctx.userId.map Json.str
  else if field = "role" then ctx.role.map Json.str
  else if field = "email" then ctx.email.map Json.str
  else ((ctx.custom.find? (fun p => p.1 == field)).map (·.2))

/-- `compareValues(actual, expected, operator)`; `none` models `undefined`, and
`operator` is the raw rule field (only string tags select non-default cases). -/
def compareValues (actual : Option Json) (expected : Option Json) (operator : Option Json) : Bool :=
  if jsStrictEqU operator (some (Json.str "equals")) then jsStrictEqU actual expected
  else if jsStrictEqU operator (some (Json.str "not_equals")) then !(jsStrictEqU actual expected)
  else if jsStrictEqU operator (some (Json.str "in")) then
    match expected with
    | some (Json.arr l) => l.any (fun e => jsStrictEqU actual (some e))
    | _ => false
  else if jsStrictEqU operator (some (Json.str "not_in")) then
    match expected with
    | some (Json.arr l) => !(l.any (fun e => jsStrictEqU actual (some e)))
    | _ => false
  else if jsStrictEqU operator (some (Json.str "contains")) then
    jsStrContains (jsToStringU (if jsTruthyU actual then actual else some (Json.str "")))
      (jsToStringU expected)
  else jsStrictEqU actual expected

/-- `evaluateCondition(rule, context)` on the fields of a rule object. -/
def evaluateCondition (fields : List (String × Json)) (ctx : FeatureFlagContext) : Bool :=
  let typeTag := (fields.find? (fun p => p.1 == "type")).map (·.2)
  let fieldName := (fields.find? (fun p => p.1 == "field")).map (·.2)
  let operator := (fields.find? (fun p => p.1 == "operator")).map (·.2)
  let value := (fields.find? (fun p => p.1 == "value")).map (·.2)
  let contextValue := fieldName.bind (fun fv => ctxGet ctx (jsToStringU (some fv)))
  if jsStrictEqU typeTag (some (Json.str "user_id")) ∨ jsStrictEqU typeTag (some (Json.str "role")) then
    compareValues contextValue value operator
  else if jsStrictEqU typeTag (some (Json.str "email_domain")) then
    match contextValue with
    | some (Json.str s) =>
      if s = "" then false
      else compareValues (((s.splitOn "@").get? 1).map Json.str) value operator
    | _ => false
  else if jsStrictEqU typeTag (some (Json.str "custom")) then
    if jsStrictEqU operator (some (Json.str "equals")) then jsStrictEqU contextValue value
    else if jsStrictEqU operator (some (Json.str "contains")) then
      jsStrContains (jsToStringU (if jsTruthyU contextValue then contextValue else some (Json.str "")))
        (jsToStringU value)
    else false
  else true

/-- `evaluateRule(rule, context)`; the fuel dominates the rule-tree depth
(`jsonSize` of the parsed conditions always suffices). -/
def evaluateRule : Nat → Json → FeatureFlagContext → Bool
  | 0, _, _ => true
  | fuel + 1, rule, ctx =>
    match rule with
    | Json.obj fields =>
      let rulesField := (fields.find? (fun p => p.1 == "rules")).map (·.2)
      let combine : Option Bool :=
        match rulesField with
        | some (Json.arr rs) =>
          let operator :=
            match (fields.find? (fun p => p.1 == "operator")).map (·.2) with
            | some v => if jsTruthy v then v else Json.str "and"
            | none => Json.str "and"
          if jsStrictEq operator (Json.str "and") then some (rs.all (fun r => evaluateRule fuel r ctx))
          else if jsStrictEq operator (Json.str "or") then some (rs.any (fun r => evaluateRule fuel r ctx))
          else none
        | _ => none
      match combine with
      | some b => b
      | none =>
        if jsTruthyU ((fields.find? (fun p => p.1 == "type")).map (·.2)) ∧
            jsTruthyU ((fields.find? (fun p => p.1 == "field")).map (·.2)) ∧
            ((fields.find? (fun p => p.1 == "value")).map (·.2)).isSome then
          evaluateCondition fields ctx
        else true
    | _ => true

/-- A stored FeatureFlag row (timestamps, which no modelled property reads,
are omitted).  `rolloutPercentage` is a JavaScript number. -/
structure FeatureFlag where
  key : String
  name : String
  description : Option String
  enabled : Bool
  rolloutPercentage : Int
  conditions : Option String
  environment : String
  updatedBy : String
deriving DecidableEq

/-- Truthiness of the stored `conditions` column (`null` and `''` are falsy). -/
def condTruthy : Option String → Bool
  | none => false
  | some s => s ≠ ""

/-- The part of `evaluateConditions` after the rollout gate: `!flag.conditions`
passes, otherwise parse and evaluate, with parse failure passing (fail-open). -/
def conditionsPart (flag : FeatureFlag) (ctx : FeatureFlagContext) : Bool :=
  match flag.conditions with
  | none => true
  | some s =>
    if s = "" then true
    else
      match parseJson s with
      | some j => evaluateRule (jsonSize j) j ctx
      | none => true

/-- `evaluateConditions(flag, context)`: the rollout-percentage gate, then the
custom conditions. -/
def evaluateConditions (flag : FeatureFlag) (ctx : FeatureFlagContext) : Bool :=
  if flag.rolloutPercentage < 100 ∧ (userPercentage ctx : Int) > flag.rolloutPercentage then false
  else conditionsPart flag ctx

/-- One entry of the in-process evaluation cache. -/
structure CacheEntry where
  enabled : Bool
  timestamp : Nat
deriving DecidableEq

/-- The manager's state: the featureFlag table and the in-process cache map. -/
structure FFState where
  store : List FeatureFlag
  cache : List (String × CacheEntry)
deriving DecidableEq

def CACHE_TTL : Nat := 120000

/-- `Map.get`. -/
def cacheLookup (cache : List (String × CacheEntry)) (k : String) : Option CacheEntry :=
  (cache.find? (fun kv => kv.1 == k)).map (·.2)

/-- `Map.set` (replaces an existing key in place, else appends). -/
def cacheSet (cache : List (String × CacheEntry)) (k : String) (v : CacheEntry) :
    List (String × CacheEntry) :=
  match cache with
  | [] => [(k, v)]
  | (k', v') :: t => if k' == k then (k, v) :: t else (k', v') :: cacheSet t k v

/-- `prisma.featureFlag.findUnique({ where: { key } })` (the key column is unique). -/
def findUnique (store : List FeatureFlag) (key : String) : Option FeatureFlag :=
  store.find? (fun f => f.key == key)

/-- The database part of `isEnabled`: not-found and environment mismatch give
`false`; an enabled flag with a partial rollout or conditions is evaluated. -/
def isEnabledCompute (store : List FeatureFlag) (flagKey : String) (ctx : FeatureFlagContext)
    (environment : String) : Bool :=
  match findUnique store flagKey with
  | none => false
  | some flag =>
    if flag.environment ≠ environment then false
    else if flag.enabled ∧ (flag.rolloutPercentage < 100 ∨ condTruthy flag.conditions) then
      evaluateConditions flag ctx
    else flag.enabled

/-- `isEnabled(flagKey, context, environment)` at time `now`: a fresh cache
entry short-circuits to its stored bit; otherwise the flag is fetched,
evaluated, and the result cached under the underscore-joined key. -/
def isEnabled (s : FFState) (flagKey : String) (ctx : FeatureFlagContext)
    (environment : String) (now : Nat) : Bool × FFState :=
  let cacheKey := getCacheKey flagKey ctx environment
  match cacheLookup s.cache cacheKey with
  | some e =>
    if now - e.timestamp < CACHE_TTL then (e.enabled, s)
    else
      let r := isEnabledCompute s.store flagKey ctx environment
      (r, ⟨s.store, cacheSet s.cache cacheKey ⟨r, now⟩⟩)
  | none =>
    let r := isEnabledCompute s.store flagKey ctx environment
    (r, ⟨s.store, cacheSet s.cache cacheKey ⟨r, now⟩⟩)

/-- `invalidateFlagCache`: drop every cache key with prefix `flag_{flagKey}_`. -/
def invalidateFlagCache (cache : List (String × CacheEntry)) (flagKey : String) :
    List (String × CacheEntry) :=
  cache.filter (fun kv => !(kv.1.startsWith ("flag_" ++ flagKey ++ "_")))

/-- `toggleFlag`: update the enabled bit (the ORM throws when the key is
missing), then invalidate that flag's cache entries. -/
def toggleFlag (s : FFState) (flagKey : String) (enabled : Bool) (updatedBy : String) :
    Except String FFState :=
  if (findUnique s.store flagKey).isSome then
    Except.ok
      ⟨s.store.map (fun f =>
          if f.key == flagKey then { f with enabled := enabled, updatedBy := updatedBy } else f),
        invalidateFlagCache s.cache flagKey⟩
  else Except.error "Record to update not found"

/-- `updateRolloutPercentage`: reject out-of-range values, else write and
invalidate. -/
def updateRolloutPercentage (s : FFState) (flagKey : String) (percentage : Int)
    (updatedBy : String) : Except String FFState :=
  if percentage < 0 ∨ percentage > 100 then
    Except.error "Rollout percentage must be between 0 and 100"
  else if (findUnique s.store flagKey).isSome then
    Except.ok
      ⟨s.store.map (fun f =>
          if f.key == flagKey then
            { f with rolloutPercentage := percentage, updatedBy := updatedBy }
          else f),
        invalidateFlagCache s.cache flagKey⟩
  else Except.error "Record to update not found"

/-- `updateConditions`: store `JSON.stringify(conditions)` and invalidate. -/
def updateConditions (s : FFState) (flagKey : String) (conditions : Json)
    (updatedBy : String) : Except String FFState :=
  if (findUnique s.store flagKey).isSome then
    Except.ok
      ⟨s.store.map (fun f =>
          if f.key == flagKey then
            { f with conditions := some (jsonStringify (jsonSize conditions) conditions),
                     updatedBy := updatedBy }
          else f),
        invalidateFlagCache s.cache flagKey⟩
  else Except.error "Record to update not found"

/-- `createFlag`: insert a new row (the unique key constraint rejects
duplicates); note that no range check is applied to `rolloutPercentage` and
the cache is not invalidated. -/
def createFlag (s : FFState) (flagKey name : String) (description : Option String)
    (enabled : Bool) (rolloutPercentage : Int) (conditions : Option Json)
    (updatedBy environment : String) : Except String FFState :=
  if (findUnique s.store flagKey).isSome then
    Except.error "Unique constraint failed"
  else
    Except.ok
      ⟨s.store ++
          [{ key := flagKey, name := name, description := description, enabled := enabled,
             rolloutPercentage := rolloutPercentage,
             conditions :=
               match conditions with
               | some j =>
                 if jsTruthy j then some (jsonStringify (jsonSize j) j) else none
               | none => none,
             environment := environment, updatedBy := updatedBy }],
        s.cache⟩

/-- `emergencyRollback`: disable every flag of the environment and clear the
whole cache. -/
def emergencyRollback (s : FFState) (updatedBy environment : String) : FFState :=
  ⟨s.store.map (fun f =>
      if f.environment == environment then { f with enabled := false, updatedBy := updatedBy }
      else f),
    []⟩

/-- The administrative operations plus evaluation, for reasoning about
operation sequences.  A failed write (a thrown ORM or validation error)
leaves the state unchanged. -/
inductive FlagOp where
  | create (flagKey name : String) (description : Option String) (enabled : Bool)
      (rolloutPercentage : Int) (conditions : Option Json) (updatedBy environment : String)
  | toggle (flagKey : String) (enabled : Bool) (updatedBy : String)
  | setRollout (flagKey : String) (percentage : Int) (updatedBy : String)
  | setConditions (flagKey : String) (conditions : Json) (updatedBy : String)
  | rollback (updatedBy environment : String)
  | check (flagKey : String) (ctx : FeatureFlagContext) (environment : String) (now : Nat)

def applyOp (s : FFState) : FlagOp → FFState
  | FlagOp.create k n d e p c u env => ((createFlag s k n d e p c u env).toOption).getD s
  | FlagOp.toggle k e u => ((toggleFlag s k e u).toOption).getD s
  | FlagOp.setRollout k p u => ((updateRolloutPercentage s k p u).toOption).getD s
  | FlagOp.setConditions k c u => ((updateConditions s k c u).toOption).getD s
  | FlagOp.rollback u env => emergencyRollback s u env
  | FlagOp.check k ctx env now => (isEnabled s k ctx env now).2

def applyOps (s : FFState) (ops : List FlagOp) : FFState := ops.foldl applyOp s

/-! ### Config store (`ConfigManager.getSystemConfig`)

The `systemConfig` table rows and the transformation the general accessor
applies to them.  `updatedAt`, which carries no information relevant to any
property below, is omitted from the output record.
-/

structure SystemConfig where
  category : String
  key : String
  environment : String
  value : String
  type : String
  isSecret : Bool
  description : Option String
deriving DecidableEq

/-- JavaScript `parseFloat`: longest leading decimal prefix, `none` for NaN.
(The `Infinity` literal, which no stored config uses, is not modelled.) -/
def jsParseFloat (s : String) : Option Rat :=
  let l := s.data.dropWhile (fun c => c ∈ jsonWsChars)
  let (sign, l1) :=
    match l with
    | '-' :: t => ((-1 : Int), t)
    | '+' :: t => ((1 : Int), t)
    | _ => ((1 : Int), l)
  let intDigits := l1.takeWhile isDigitChar
  let l2 := l1.dropWhile isDigitChar
  let (fracDigits, l3) :=
    match l2 with
    | '.' :: t => (t.takeWhile isDigitChar, t.dropWhile isDigitChar)
    | _ => ([], l2)
  if intDigits.isEmpty ∧ fracDigits.isEmpty then none
  else
    let exp : Int :=
      match l3 with
      | 'e' :: t | 'E' :: t =>
        let (es, t1) :=
          match t with
          | '+' :: u => ((1 : Int), u)
          | '-' :: u => ((-1 : Int), u)
          | _ => ((1 : Int), t)
        let eds := t1.takeWhile isDigitChar
        if eds.isEmpty then 0 else es * (digitsToNat eds : Int)
      | _ => 0
    let mantissa : Int :=
      sign * ((digitsToNat intDigits * 10 ^ fracDigits.length + digitsToNat fracDigits : Nat) : Int)
    let scale : Int := exp - (fracDigits.length : Int)
    some
      (if 0 ≤ scale then ((mantissa * 10 ^ scale.toNat : Int) : Rat)
       else mkRat mantissa (10 ^ (-scale).toNat))

/-- The value field of one accessor output entry.  `num none` models NaN. -/
inductive ConfigValue where
  | str (s : String) : ConfigValue
  | num (q : Option Rat) : ConfigValue
  | bool (b : Bool) : ConfigValue
  | json (j : Json) : ConfigValue

/-- The masked placeholder written over string-typed secrets. -/
def secretMask : String := "••••••••"

/-- The per-type value conversion of `getSystemConfig`.  Only the
`'string'`/default switch branch masks secrets; `number`, `boolean` and
`json` values are parsed and returned as stored. -/
def configConvertValue (c : SystemConfig) : ConfigValue :=
  if c.type == "number" then ConfigValue.num (jsParseFloat c.value)
  else if c.type == "boolean" then ConfigValue.bool (c.value == "true")
  else if c.type == "json" then
    match parseJson c.value with
    | some j => ConfigValue.json j
    | none => ConfigValue.str c.value
  else if c.isSecret then ConfigValue.str secretMask
  else ConfigValue.str c.value

structure ConfigEntryOut where
  value : ConfigValue
  type : String
  category : String
  description : Option String
  isSecret : Bool

def configEntryOut (c : SystemConfig) : ConfigEntryOut :=
  { value := configConvertValue c, type := c.type, category := c.category,
    description := c.description, isSecret := c.isSecret }

/-- `orderBy: [{category: 'asc'}, {key: 'asc'}]`. -/
def cfgLE (a b : SystemConfig) : Bool :=
  a.category < b.category || (a.category == b.category && (a.key < b.key || a.key == b.key))

def insertCfg (c : SystemConfig) : List SystemConfig → List SystemConfig
  | [] => [c]
  | d :: t => if cfgLE c d then c :: d :: t else d :: insertCfg c t

def sortConfigs (l : List SystemConfig) : List SystemConfig := l.foldr insertCfg []

/-- `result[key] = v` on a JavaScript object: overwrite in place, else append. -/
def assocSet {α : Type} (l : List (String × α)) (k : String) (v : α) : List (String × α) :=
  match l with
  | [] => [(k, v)]
  | (k', v') :: t => if k' == k then (k, v) :: t else (k', v') :: assocSet t k v

def assocGet {α : Type} (l : List (String × α)) (k : String) : Option α :=
  (l.find? (fun kv => kv.1 == k)).map (·.2)

/-- The database fetch and transform of `getSystemConfig` (no cache hit). -/
def getSystemConfigFetch (db : List SystemConfig) (category : Option String)
    (environment : String) : List (String × ConfigEntryOut) :=
  let matching := db.filter (fun c =>
    c.environment == environment &&
      (match category with
       | some cat => c.category == cat
       | none => true))
  (sortConfigs matching).foldl (fun acc c => assocSet acc c.key (configEntryOut c)) []

def CONFIG_CACHE_TTL : Nat := 300000

/-- One entry of the config cache. -/
structure ConfigCacheEntry where
  data : List (String × ConfigEntryOut)
  timestamp : Nat

/-- `getSystemConfig(category?, environment)` with its in-process cache keyed
`config_{category || 'all'}_{environment}` (a cache miss fetches and caches). -/
def getSystemConfig (db : List SystemConfig) (cache : List (String × ConfigCacheEntry))
    (now : Nat) (category : Option String) (environment : String) :
    List (String × ConfigEntryOut) × List (String × ConfigCacheEntry) :=
  let cacheKey := "config_" ++ (category.getD "all") ++ "_" ++ environment
  match assocGet cache cacheKey with
  | some e =>
    if now - e.timestamp < CONFIG_CACHE_TTL then (e.data, cache)
    else
      let r := getSystemConfigFetch db category environment
      (r, assocSet cache cacheKey ⟨r, now⟩)
  | none =>
    let r := getSystemConfigFetch db category environment
    (r, assocSet cache cacheKey ⟨r, now⟩)

/-! ### QR token timestamp validation (`validateQRCodeTimestamp`) -/

/-- The default maximum age: `24 * 60 * 60 * 1000` milliseconds. -/
def qrDefaultMaxAge : Int := 24 * 60 * 60 * 1000

/-- `validateQRCodeTimestamp(timestamp, maxAge)` at time `now`:
`now - timestamp <= maxAge`. -/
def validateQRCodeTimestamp (timestamp : Int) (now : Int) (maxAge : Int) : Bool :=
  now - timestamp ≤ maxAge

/-! ### Booking conflict check (POST /api/bookings) -/

/-- The per-booking overlap test of the conflict check:
`startTime < bookingEnd && endTime > bookingStart`. -/
def bookingOverlaps (startTime endTime bookingStart bookingEnd : Int) : Bool :=
  startTime < bookingEnd && endTime > bookingStart

/-- `parkingSpace.bookings.some(...)` over the existing bookings' time ranges. -/
def hasConflict (startTime endTime : Int) (bookings : List (Int × Int)) : Bool :=
  bookings.any (fun b => bookingOverlaps startTime endTime b.1 b.2)

/-! ### Concrete instances used by individual claim theorems -/

/-- A context with no userId, email or role: the identifier hashes "anonymous". -/
def emptyFFContext : FeatureFlagContext := ⟨none, none, none, []⟩

/-- The bucket a low-32-bits reading of the digest would give (the claim's
wording), for comparison with the code's `userPercentage`. -/
def specLowBucket (identifier : String) : Nat := md5DigestNat identifier % 2 ^ 32 % 100 + 1

def c1FlagW : FeatureFlag :=
  { key := "new-checkout", name := "New checkout", description := none, enabled := true,
    rolloutPercentage := 30, conditions := some "not json", environment := "production",
    updatedBy := "admin" }

def c2CtxA : FeatureFlagContext := ⟨some "v", some "r", none, []⟩

def c2CtxB : FeatureFlagContext := ⟨some "u_v", some "r_z", none, []⟩

/-- Two flags whose underscore-joined cache keys alias:
`getCacheKey "k_u" (userId v, role r) "z_a" = getCacheKey "k" (userId u_v, role r_z) "a"`. -/
def c2State1 : FFState :=
  applyOps ⟨[], []⟩
    [FlagOp.create "k_u" "Alias flag" none true 100 none "admin" "z_a",
     FlagOp.create "k" "Victim flag" none false 100 none "admin" "a"]

def c2Run1 : Bool × FFState := isEnabled c2State1 "k_u" c2CtxA "z_a" 0

def c2Run2 : Bool × FFState := isEnabled c2Run1.2 "k" c2CtxB "a" 1

def c4CtxA : FeatureFlagContext := ⟨some "v", some "r", none, []⟩

def c4CtxB : FeatureFlagContext := ⟨some "u_v", some "r_z", none, []⟩

/-- Both flags enabled, then an emergency rollback of environment "a". -/
def c4State1 : FFState :=
  applyOps ⟨[], []⟩
    [FlagOp.create "k_u" "Alias flag" none true 100 none "admin" "z_a",
     FlagOp.create "k" "Victim flag" none true 100 none "admin" "a",
     FlagOp.rollback "admin" "a"]

def c4Run1 : Bool × FFState := isEnabled c4State1 "k_u" c4CtxA "z_a" 0

def c4Run2 : Bool × FFState := isEnabled c4Run1.2 "k" c4CtxB "a" 1

def c3FlagW : FeatureFlag :=
  { key := "beta-ui", name := "Beta UI", description := none, enabled := true,
    rolloutPercentage := 25, conditions := some "not json", environment := "production",
    updatedBy := "admin" }

def c3StateW : FFState := ⟨[c3FlagW], []⟩

def c3CtxW : FeatureFlagContext := ⟨none, none, none, []⟩

def c7FlagW : FeatureFlag :=
  { key := "new-search", name := "New search", description := none, enabled := true,
    rolloutPercentage := 50, conditions := some "not json", environment := "production",
    updatedBy := "admin" }

def c7StateW : FFState := ⟨[c7FlagW], []⟩

def c7CtxW : FeatureFlagContext := ⟨none, none, none, []⟩

/-- `opRolloutOK op`: the create operations of a sequence carry an in-range
rollout percentage (the other operations are unconstrained). -/
def opRolloutOK : FlagOp → Prop
  | FlagOp.create _ _ _ _ p _ _ _ => 0 ≤ p ∧ p ≤ 100
  | _ => True

/-- A create that passes `rolloutPercentage: 150` straight through. -/
def c5BadState : FFState :=
  applyOp ⟨[], []⟩ (FlagOp.create "over" "Over" none false 150 none "admin" "production")

def c5OpsW : List FlagOp :=
  [FlagOp.create "f" "F" none false 100 none "admin" "production",
   FlagOp.setRollout "f" 150 "admin",
   FlagOp.toggle "f" true "admin"]

def c5FlagW : FeatureFlag :=
  { key := "f", name := "F", description := none, enabled := true, rolloutPercentage := 100,
    conditions := none, environment := "production", updatedBy := "admin" }

def c6Db1 : List SystemConfig :=
  [{ category := "platform", key := "paymentFlag", environment := "production", value := "true",
     type := "boolean", isSecret := true, description := none }]

def c6Db2 : List SystemConfig :=
  [{ category := "platform", key := "paymentFlag", environment := "production", value := "false",
     type := "boolean", isSecret := true, description := none }]

def c6Db3 : List SystemConfig :=
  [{ category := "platform", key := "apiToken", environment := "production", value := "hunter2",
     type := "string", isSecret := true, description := none }]

def c6Out1 : List (String × ConfigEntryOut) := (getSystemConfig c6Db1 [] 0 none "production").1

def c6Out2 : List (String × ConfigEntryOut) := (getSystemConfig c6Db2 [] 0 none "production").1

def c6Out3 : List (String × ConfigEntryOut) := (getSystemConfig c6Db3 [] 0 none "production").1

def c10FlagW : FeatureFlag :=
  { key := "email-gate", name := "Email gate", description := none, enabled := true,
    rolloutPercentage := 25, conditions := none, environment := "production",
    updatedBy := "admin" }

def c10StateW : FFState := ⟨[c10FlagW], []⟩

def c10CtxA : FeatureFlagContext := ⟨none, none, some "u1", []⟩

def c10CtxB : FeatureFlagContext := ⟨none, none, some "alice", []⟩

/-! ### Supporting lemmas -/

theorem leBytes_length (k : Nat) : ∀ n, (leBytes k n).length = k := by
  induction k with
  | zero => intro n; rfl
  | succ k ih => intro n; simp [leBytes, ih]

theorem leBytes_lt (k : Nat) : ∀ n, ∀ b ∈ leBytes k n, b < 256 := by
  induction k with
  | zero => intro n b hb; simp [leBytes] at hb
  | succ k ih =>
    intro n b hb
    simp only [leBytes, List.mem_cons] at hb
    rcases hb with rfl | hb
    · exact Nat.mod_lt _ (by norm_num)
    · exact ih _ b hb

theorem beVal_append (l1 l2 : List Nat) :
    beVal (l1 ++ l2) = beVal l1 * 256 ^ l2.length + beVal l2 := by
  induction l1 with
  | nil => simp [beVal]
  | cons b t ih =>
    show b * 256 ^ (t ++ l2).length + beVal (t ++ l2) = _
    rw [ih, List.length_append, pow_add]
    simp only [beVal]
    ring

theorem beVal_lt (l : List Nat) (h : ∀ b ∈ l, b < 256) : beVal l < 256 ^ l.length := by
  induction l with
  | nil => simp [beVal]
  | cons b t ih =>
    have hb : b < 256 := h b (List.mem_cons_self _ _)
    have ht : beVal t < 256 ^ t.length := ih (fun x hx => h x (List.mem_cons_of_mem _ hx))
    simp only [beVal, List.length_cons, pow_succ]
    calc b * 256 ^ t.length + beVal t < b * 256 ^ t.length + 256 ^ t.length := by omega
    _ = (b + 1) * 256 ^ t.length := by ring
    _ ≤ 256 * 256 ^ t.length := by
        have : b + 1 ≤ 256 := by omega
        exact Nat.mul_le_mul_right _ this
    _ = 256 ^ t.length * 256 := by ring

theorem hexCharValue_hexDigitChar : ∀ d < 16, hexCharValue (hexDigitChar d) = some d := by
  decide

theorem hexPair_fold (bs : List Nat) (h : ∀ b ∈ bs, b < 256) : ∀ acc,
    (bs.flatMap hexPairChars).foldl (fun a c => 16 * a + ((hexCharValue c).getD 0)) acc =
      acc * 256 ^ bs.length + beVal bs := by
  induction bs with
  | nil => intro acc; simp [beVal]
  | cons b t ih =>
    intro acc
    have hb : b < 256 := h b (List.mem_cons_self _ _)
    have h1 : hexCharValue (hexDigitChar (b / 16)) = some (b / 16) :=
      hexCharValue_hexDigitChar _ (by omega)
    have h2 : hexCharValue (hexDigitChar (b % 16)) = some (b % 16) :=
      hexCharValue_hexDigitChar _ (by omega)
    simp only [List.flatMap_cons, hexPairChars, List.cons_append, List.nil_append,
      List.foldl_cons, h1, h2, Option.getD_some]
    rw [ih (fun x hx => h x (List.mem_cons_of_mem _ hx))]
    have hmod : 16 * (16 * acc + b / 16) + b % 16 = acc * 256 + b := by omega
    rw [hmod]
    simp only [List.length_cons, beVal, pow_succ]
    ring

theorem hexPair_all_hex (bs : List Nat) (h : ∀ b ∈ bs, b < 256) :
    ∀ c ∈ bs.flatMap hexPairChars, (hexCharValue c).isSome = true := by
  intro c hc
  simp only [List.mem_flatMap, hexPairChars, List.mem_cons, List.not_mem_nil, or_false] at hc
  obtain ⟨b, hb, hcc⟩ := hc
  have hblt := h b hb
  rcases hcc with rfl | rfl
  · rw [hexCharValue_hexDigitChar _ (by omega)]; rfl
  · rw [hexCharValue_hexDigitChar _ (by omega)]; rfl

theorem takeWhile_of_all {p : Char → Bool} (l : List Char) (h : ∀ c ∈ l, p c = true) :
    l.takeWhile p = l := by
  induction l with
  | nil => rfl
  | cons c t ih =>
    simp only [List.takeWhile_cons, h c (List.mem_cons_self _ _), if_true]
    rw [ih (fun x hx => h x (List.mem_cons_of_mem _ hx))]

theorem hexPair_length (bs : List Nat) : (bs.flatMap hexPairChars).length = 2 * bs.length := by
  induction bs with
  | nil => rfl
  | cons b t ih =>
    simp [hexPairChars, ih]
    omega

/-- `parseInt(hex(bs).substring(0, 8), 16)` on a 16-byte digest extracts its
leading four bytes: the top 32 bits of the big-endian digest value. -/
theorem hash_eq_div (bs : List Nat) (hlen : bs.length = 16) (hlt : ∀ x ∈ bs, x < 256) :
    (jsParseIntHex (jsSubstringTo (bytesToHex bs) 8)).getD 0 = beVal bs / 2 ^ 96 := by
  have hsplit : bs = bs.take 4 ++ bs.drop 4 := (List.take_append_drop 4 bs).symm
  have hlen4 : (bs.take 4).length = 4 := by simp [hlen]
  have hlen12 : (bs.drop 4).length = 12 := by simp [hlen]
  have hltA : ∀ x ∈ bs.take 4, x < 256 := fun x hx => hlt x (List.mem_of_mem_take hx)
  have hltB : ∀ x ∈ bs.drop 4, x < 256 := fun x hx => hlt x (List.mem_of_mem_drop hx)
  have hdata : (bytesToHex bs).data = bs.flatMap hexPairChars := rfl
  have hfm : bs.flatMap hexPairChars =
      (bs.take 4).flatMap hexPairChars ++ (bs.drop 4).flatMap hexPairChars := by
    conv_lhs => rw [hsplit]
    exact List.flatMap_append ..
  have hlenA : ((bs.take 4).flatMap hexPairChars).length = 8 := by
    rw [hexPair_length, hlen4]
  have htake : (bs.flatMap hexPairChars).take 8 = (bs.take 4).flatMap hexPairChars := by
    rw [hfm, ← hlenA, List.take_left]
  have hsub : (jsSubstringTo (bytesToHex bs) 8).data = (bs.take 4).flatMap hexPairChars := by
    simp only [jsSubstringTo, hdata, htake]
  rw [jsParseIntHex]
  simp only [hsub]
  rw [takeWhile_of_all _ (hexPair_all_hex _ hltA)]
  have hne : ¬(((bs.take 4).flatMap hexPairChars).isEmpty = true) := by
    intro hcon
    rw [List.isEmpty_iff] at hcon
    rw [hcon] at hlenA
    simp at hlenA
  rw [if_neg hne]
  rw [Option.getD_some]
  rw [hexPair_fold _ hltA 0, hlen4]
  have hBlt : beVal (bs.drop 4) < 256 ^ 12 := by
    have := beVal_lt (bs.drop 4) hltB
    rwa [hlen12] at this
  have hbs : beVal bs = beVal (bs.take 4) * 256 ^ 12 + beVal (bs.drop 4) := by
    conv_lhs => rw [hsplit]
    rw [beVal_append, hlen12]
  rw [hbs]
  have h2 : (256 : Nat) ^ 12 = 2 ^ 96 := by norm_num
  rw [← h2]
  rw [Nat.mul_comm (beVal (bs.take 4)) (256 ^ 12)]
  rw [Nat.mul_add_div (by positivity)]
  rw [Nat.div_eq_of_lt hBlt]
  simp

theorem md5Bytes_shape (m : List Nat) :
    (md5Bytes m).length = 16 ∧ ∀ x ∈ md5Bytes m, x < 256 := by
  unfold md5Bytes
  rcases md5Blocks ((md5Pad m).length / 64 + 1) (1732584193, 4023233417, 2562383102, 271733878)
      (md5Pad m) with ⟨a, b, c, d⟩
  constructor
  · simp [leBytes_length]
  · intro x hx
    simp only [List.mem_append] at hx
    rcases hx with ((hx | hx) | hx) | hx <;> exact leBytes_lt _ _ x hx

/-- The code's rollout hash is the top 32 bits of the 128-bit MD5 digest
(its leading 8 hex digits). -/
theorem hashUserForRollout_eq_div (identifier : String) :
    hashUserForRollout identifier = md5DigestNat identifier / 2 ^ 96 := by
  obtain ⟨hlen, hlt⟩ := md5Bytes_shape (utf8Bytes identifier)
  exact hash_eq_div _ hlen hlt

theorem cacheLookup_cacheSet_self (cache : List (String × CacheEntry)) (k : String)
    (v : CacheEntry) : cacheLookup (cacheSet cache k v) k = some v := by
  induction cache with
  | nil => simp [cacheSet, cacheLookup]
  | cons kv t ih =>
    obtain ⟨k', v'⟩ := kv
    by_cases h : k' = k
    · simp [cacheSet, cacheLookup, h]
    · unfold cacheSet
      rw [if_neg (by simpa using h)]
      unfold cacheLookup
      rw [List.find?_cons_of_neg _ (by simpa using h)]
      exact ih

theorem isEnabled_store_eq (s : FFState) (k : String) (ctx : FeatureFlagContext)
    (env : String) (now : Nat) : ((isEnabled s k ctx env now).2).store = s.store := by
  rcases h : cacheLookup s.cache (getCacheKey k ctx env) with _ | e
  · simp [isEnabled, h]
  · by_cases ht : now - e.timestamp < CACHE_TTL
    · simp [isEnabled, h, ht]
    · simp [isEnabled, h, ht]

theorem applyOp_rollout_preserves (s : FFState) (op : FlagOp) (hop : opRolloutOK op)
    (h : ∀ f ∈ s.store, 0 ≤ f.rolloutPercentage ∧ f.rolloutPercentage ≤ 100) :
    ∀ f ∈ (applyOp s op).store, 0 ≤ f.rolloutPercentage ∧ f.rolloutPercentage ≤ 100 := by
  cases op with
  | create k n d e p c u env =>
    intro f hf
    by_cases hx : (findUnique s.store k).isSome
    · simp only [applyOp, createFlag, if_pos hx, Except.toOption, Option.getD] at hf
      exact h f hf
    · simp only [applyOp, createFlag, if_neg hx, Except.toOption, Option.getD,
        List.mem_append, List.mem_singleton] at hf
      rcases hf with hf | rfl
      · exact h f hf
      · exact hop
  | toggle k e u =>
    intro f hf
    by_cases hx : (findUnique s.store k).isSome
    · simp only [applyOp, toggleFlag, if_pos hx, Except.toOption, Option.getD,
        List.mem_map] at hf
      obtain ⟨f0, hf0, rfl⟩ := hf
      have := h f0 hf0
      split <;> simpa using this
    · simp only [applyOp, toggleFlag, if_neg hx, Except.toOption, Option.getD] at hf
      exact h f hf
  | setRollout k p u =>
    intro f hf
    by_cases hr : p < 0 ∨ p > 100
    · simp only [applyOp, updateRolloutPercentage, if_pos hr, Except.toOption,
        Option.getD] at hf
      exact h f hf
    · by_cases hx : (findUnique s.store k).isSome
      · simp only [applyOp, updateRolloutPercentage, if_neg hr, if_pos hx, Except.toOption,
          Option.getD, List.mem_map] at hf
        obtain ⟨f0, hf0, rfl⟩ := hf
        have := h f0 hf0
        split
        · simp only []
          constructor <;> omega
        · simpa using this
      · simp only [applyOp, updateRolloutPercentage, if_neg hr, if_neg hx, Except.toOption,
          Option.getD] at hf
        exact h f hf
  | setConditions k c u =>
    intro f hf
    by_cases hx : (findUnique s.store k).isSome
    · simp only [applyOp, updateConditions, if_pos hx, Except.toOption, Option.getD,
        List.mem_map] at hf
      obtain ⟨f0, hf0, rfl⟩ := hf
      have := h f0 hf0
      split <;> simpa using this
    · simp only [applyOp, updateConditions, if_neg hx, Except.toOption, Option.getD] at hf
      exact h f hf
  | rollback u env =>
    intro f hf
    simp only [applyOp, emergencyRollback, List.mem_map] at hf
    obtain ⟨f0, hf0, rfl⟩ := hf
    have := h f0 hf0
    split <;> simpa using this
  | check k ctx env now =>
    intro f hf
    rw [applyOp, isEnabled_store_eq] at hf
    exact h f hf

/-! ### Claim theorems -/

/-- Claim C1, as stated, is false at the context with no userId and no email:
the code's bucket hashes "anonymous" and takes the LEADING 8 hex digits of the
MD5 digest, giving bucket 26, while the low 32 bits of the digest would give
bucket 4. -/
theorem c1_low32_counterexample :
    userPercentage emptyFFContext = 26 ∧
    specLowBucket (rolloutIdentifier emptyFFContext) = 4 ∧
    userPercentage emptyFFContext ≠ specLowBucket (rolloutIdentifier emptyFFContext) := by
  decide

/-- Claim C1 (amended): for every flag with rolloutPercentage < 100 the
evaluator computes the caller's bucket by MD5-hashing the stable identifier
(userId if present and non-empty, else email if present and non-empty, else
"anonymous"), taking the FIRST 32 bits of the digest (its leading 8 hex
digits), reducing modulo 100 and adding 1 — an integer in [1,100]; the
rollout gate of evaluateConditions rejects exactly when this bucket exceeds
the rollout percentage. -/
theorem c1_bucket_amended (flag : FeatureFlag) (ctx : FeatureFlagContext)
    (h : flag.rolloutPercentage < 100) :
    userPercentage ctx = md5DigestNat (rolloutIdentifier ctx) / 2 ^ 96 % 100 + 1 ∧
    1 ≤ userPercentage ctx ∧ userPercentage ctx ≤ 100 ∧
    ((userPercentage ctx : Int) > flag.rolloutPercentage → evaluateConditions flag ctx = false) ∧
    ((userPercentage ctx : Int) ≤ flag.rolloutPercentage →
      evaluateConditions flag ctx = conditionsPart flag ctx) := by
  refine ⟨?_, ?_, ?_, ?_, ?_⟩
  · unfold userPercentage
    rw [hashUserForRollout_eq_div]
  · unfold userPercentage
    omega
  · unfold userPercentage
    have := Nat.mod_lt (hashUserForRollout (rolloutIdentifier ctx)) (show 0 < 100 by norm_num)
    omega
  · intro hgt
    unfold evaluateConditions
    rw [if_pos ⟨h, hgt⟩]
  · intro hle
    unfold evaluateConditions
    rw [if_neg (by intro ⟨_, hgt⟩; omega)]

/-- Witness for c1_bucket_amended at a concrete flag and context. -/
theorem c1_bucket_amended_witness :
    c1FlagW.rolloutPercentage < 100 ∧
    1 ≤ userPercentage emptyFFContext ∧ userPercentage emptyFFContext ≤ 100 :=
  ⟨by decide, (c1_bucket_amended c1FlagW emptyFFContext (by decide)).2.1,
    (c1_bucket_amended c1FlagW emptyFFContext (by decide)).2.2.1⟩

/-- Claim C2 fails on the code: the underscore-joined cache keys alias across
distinct (flagKey, userId, role, environment) tuples, so after an evaluation
of the enabled flag "k_u" (environment "z_a", userId "v", role "r") caches
`true` at key `flag_k_u_v_r_z_a`, an isEnabled check of the DISABLED flag "k"
in environment "a" with userId "u_v" and role "r_z" reads that entry and
returns `true`, although the stored flag has enabled = false. -/
theorem c2_disabled_flag_cache_alias :
    (findUnique c2Run2.2.store "k").map (·.enabled) = some false ∧ c2Run2.1 = true := by
  decide

/-- Claim C3: when an enabled flag's rollout percentage is below 100 and the
caller's bucket exceeds it, evaluateConditions returns false for EVERY stored
conditions value (the rule tree, malformed or not, is never consulted), and a
fresh (uncached) isEnabled evaluation returns false. -/
theorem c3_rollout_gate_short_circuits (s : FFState) (flagKey : String) (flag : FeatureFlag)
    (ctx : FeatureFlagContext) (env : String) (now : Nat)
    (hfind : findUnique s.store flagKey = some flag)
    (henv : flag.environment = env)
    (hen : flag.enabled = true)
    (hroll : flag.rolloutPercentage < 100)
    (hexceed : (userPercentage ctx : Int) > flag.rolloutPercentage)
    (hmiss : cacheLookup s.cache (getCacheKey flagKey ctx env) = none) :
    evaluateConditions flag ctx = false ∧ (isEnabled s flagKey ctx env now).1 = false := by
  have h1 : evaluateConditions flag ctx = false := by
    unfold evaluateConditions
    rw [if_pos ⟨hroll, hexceed⟩]
  refine ⟨h1, ?_⟩
  simp only [isEnabled, hmiss]
  simp only [isEnabledCompute, hfind, henv]
  simp [hen, hroll, h1]

/-- Witness for c3_rollout_gate_short_circuits: a flag with rollout 25 and
malformed conditions, checked by the anonymous caller, whose bucket is 26. -/
theorem c3_rollout_gate_witness :
    (isEnabled c3StateW "beta-ui" c3CtxW "production" 0).1 = false ∧
    evaluateConditions c3FlagW c3CtxW = false :=
  ⟨(c3_rollout_gate_short_circuits c3StateW "beta-ui" c3FlagW c3CtxW "production" 0 (by decide)
      rfl rfl (by decide) (by decide) rfl).2,
    (c3_rollout_gate_short_circuits c3StateW "beta-ui" c3FlagW c3CtxW "production" 0 (by decide)
      rfl rfl (by decide) (by decide) rfl).1⟩

/-- Claim C4 fails on the code: after emergencyRollback of environment "a"
(which does disable the stored flag "k" of environment "a" and clears the
cache), a subsequent isEnabled evaluation of the still-enabled flag "k_u" of
environment "z_a" caches `true` at the aliasing key `flag_k_u_v_r_z_a`, and a
following isEnabled check of flag "k" in the rolled-back environment "a"
returns `true` with no intervening write re-enabling any flag. -/
theorem c4_rollback_cache_alias :
    (findUnique c4State1.store "k").map (·.enabled) = some false ∧
    (findUnique c4State1.store "k").map (·.environment) = some "a" ∧
    c4Run2.1 = true := by
  decide

/-- Claim C5 fails as stated: createFlag applies no range check, so the create
operation stores rolloutPercentage 150 unchanged instead of rejecting it. -/
theorem c5_create_unvalidated_counterexample :
    c5BadState.store.map (·.rolloutPercentage) = [150] ∧ ¬((150 : Int) ≤ 100) := by
  decide

/-- Claim C5 (amended): provided every create operation carries an in-range
rolloutPercentage (create performs no validation of its own), every stored
flag satisfies rolloutPercentage ∈ [0,100] after any sequence of
administrative operations: toggle, set-conditions, rollback and evaluation
never change it, and updateRolloutPercentage rejects out-of-range values with
an error, leaving the store unchanged. -/
theorem c5_rollout_invariant_amended (ops : List FlagOp) (s0 : FFState)
    (h0 : ∀ f ∈ s0.store, 0 ≤ f.rolloutPercentage ∧ f.rolloutPercentage ≤ 100)
    (hops : ∀ op ∈ ops, opRolloutOK op) :
    ∀ f ∈ (applyOps s0 ops).store, 0 ≤ f.rolloutPercentage ∧ f.rolloutPercentage ≤ 100 := by
  induction ops generalizing s0 with
  | nil => simpa [applyOps] using h0
  | cons op rest ih =>
    have hstep := applyOp_rollout_preserves s0 op (hops op (List.mem_cons_self _ _)) h0
    have hrest : ∀ op' ∈ rest, opRolloutOK op' := fun o ho => hops o (List.mem_cons_of_mem _ ho)
    simpa [applyOps] using ih (applyOp s0 op) hstep hrest

/-- Witness for c5_rollout_invariant_amended: a create at 100, a rejected
update to 150, and a toggle leave the flag at rollout 100. -/
theorem c5_rollout_invariant_witness :
    0 ≤ c5FlagW.rolloutPercentage ∧ c5FlagW.rolloutPercentage ≤ 100 :=
  c5_rollout_invariant_amended c5OpsW ⟨[], []⟩ (by simp)
    (by
      intro op hop
      simp only [c5OpsW, List.mem_cons, List.not_mem_nil, or_false] at hop
      rcases hop with rfl | rfl | rfl <;> simp [opRolloutOK])
    c5FlagW (by decide)

/-- Claim C6 fails on the code: getSystemConfig masks only string-typed
secrets.  Two stores differing only in the value of a boolean-typed secret
produce different outputs, each containing the parsed plaintext value, while
a string-typed secret is indeed masked. -/
theorem c6_secret_leak :
    assocGet c6Out1 "paymentFlag" =
      some ⟨ConfigValue.bool true, "boolean", "platform", none, true⟩ ∧
    assocGet c6Out2 "paymentFlag" =
      some ⟨ConfigValue.bool false, "boolean", "platform", none, true⟩ ∧
    c6Out1 ≠ c6Out2 ∧
    assocGet c6Out3 "apiToken" =
      some ⟨ConfigValue.str secretMask, "string", "platform", none, true⟩ := by
  refine ⟨rfl, rfl, ?_, rfl⟩
  intro hcon
  have h1 : assocGet c6Out1 "paymentFlag" =
      some ⟨ConfigValue.bool true, "boolean", "platform", none, true⟩ := rfl
  have h2 : assocGet c6Out2 "paymentFlag" =
      some ⟨ConfigValue.bool false, "boolean", "platform", none, true⟩ := rfl
  rw [hcon, h2] at h1
  simp at h1

/-- Claim C7: an enabled flag whose stored conditions string does not parse as
JSON evaluates fail-open.  When the caller's bucket does not exceed the
rollout percentage, evaluateConditions returns true, and a fresh (uncached)
isEnabled evaluation returns true. -/
theorem c7_malformed_conditions_fail_open (s : FFState) (flagKey : String) (flag : FeatureFlag)
    (ctx : FeatureFlagContext) (env : String) (now : Nat) (condStr : String)
    (hfind : findUnique s.store flagKey = some flag)
    (henv : flag.environment = env)
    (hen : flag.enabled = true)
    (hcond : flag.conditions = some condStr)
    (hbad : parseJson condStr = none)
    (hok : (userPercentage ctx : Int) ≤ flag.rolloutPercentage)
    (hmiss : cacheLookup s.cache (getCacheKey flagKey ctx env) = none) :
    evaluateConditions flag ctx = true ∧ (isEnabled s flagKey ctx env now).1 = true := by
  have hpart : conditionsPart flag ctx = true := by
    unfold conditionsPart
    rw [hcond]
    by_cases hs : condStr = ""
    · simp [hs]
    · simp only [if_neg hs, hbad]
  have h1 : evaluateConditions flag ctx = true := by
    unfold evaluateConditions
    rw [if_neg (by intro ⟨_, hgt⟩; omega), hpart]
  refine ⟨h1, ?_⟩
  simp only [isEnabled, hmiss]
  simp only [isEnabledCompute, hfind, henv]
  by_cases hg : flag.rolloutPercentage < 100 ∨ condTruthy flag.conditions
  · simp [hen, hg, h1]
  · simp [hen, hg]

/-- Witness for c7_malformed_conditions_fail_open: a flag with rollout 50 and
conditions "not json", checked by the anonymous caller, whose bucket is 26. -/
theorem c7_malformed_conditions_witness :
    (isEnabled c7StateW "new-search" c7CtxW "production" 0).1 = true ∧
    evaluateConditions c7FlagW c7CtxW = true :=
  ⟨(c7_malformed_conditions_fail_open c7StateW "new-search" c7FlagW c7CtxW "production" 0
      "not json" (by decide) rfl rfl rfl rfl (by decide) rfl).2,
    (c7_malformed_conditions_fail_open c7StateW "new-search" c7FlagW c7CtxW "production" 0
      "not json" (by decide) rfl rfl rfl rfl (by decide) rfl).1⟩

/-- Claim C8: the QR timestamp check accepts exactly the tokens with
`now - t <= 24h`; an age of exactly 24 hours is accepted and 24 hours plus one
millisecond is rejected. -/
theorem c8_qr_timestamp_boundary :
    (∀ t now : Int, validateQRCodeTimestamp t now qrDefaultMaxAge = true ↔
      now - t ≤ 24 * 60 * 60 * 1000) ∧
    (∀ t : Int, validateQRCodeTimestamp t (t + 24 * 60 * 60 * 1000) qrDefaultMaxAge = true) ∧
    (∀ t : Int, validateQRCodeTimestamp t (t + 24 * 60 * 60 * 1000 + 1) qrDefaultMaxAge = false) := by
  refine ⟨fun t now => ?_, fun t => ?_, fun t => ?_⟩
  · simp only [validateQRCodeTimestamp, qrDefaultMaxAge, decide_eq_true_eq]
  · simp only [validateQRCodeTimestamp, qrDefaultMaxAge, decide_eq_true_eq]
    omega
  · simp only [validateQRCodeTimestamp, qrDefaultMaxAge, decide_eq_false_iff_not]
    omega

/-- Claim C9: the booking conflict test flags two ranges exactly when the
half-open intervals [start1,end1) and [start2,end2) intersect, i.e. iff
start1 < end2 and end1 > start2; in particular [10:00,11:00) conflicts with
[10:30,11:30) and not with [11:00,12:00) (times in minutes). -/
theorem c9_booking_conflict_iff :
    (∀ s1 e1 s2 e2 : Int, s1 < e1 → s2 < e2 →
      (bookingOverlaps s1 e1 s2 e2 = true ↔
        ∃ t : Int, (s1 ≤ t ∧ t < e1) ∧ (s2 ≤ t ∧ t < e2))) ∧
    bookingOverlaps 600 660 630 690 = true ∧
    bookingOverlaps 600 660 660 720 = false ∧
    hasConflict 600 660 [(630, 690)] = true ∧
    hasConflict 600 660 [(660, 720)] = false := by
  refine ⟨fun s1 e1 s2 e2 h1 h2 => ?_, by decide, by decide, by decide, by decide⟩
  constructor
  · intro hov
    simp only [bookingOverlaps, Bool.and_eq_true, decide_eq_true_eq] at hov
    rcases le_or_lt s1 s2 with hc | hc
    · exact ⟨s2, ⟨hc, by omega⟩, ⟨le_refl _, h2⟩⟩
    · exact ⟨s1, ⟨le_refl _, h1⟩, ⟨by omega, by omega⟩⟩
  · rintro ⟨t, ⟨ha, hb⟩, ⟨hc, hd⟩⟩
    simp only [bookingOverlaps, Bool.and_eq_true, decide_eq_true_eq]
    omega

/-- Witness for c9_booking_conflict_iff at concrete overlapping ranges. -/
theorem c9_booking_conflict_witness :
    bookingOverlaps 0 2 1 3 = true ↔ ∃ t : Int, (0 ≤ t ∧ t < 2) ∧ (1 ≤ t ∧ t < 3) :=
  c9_booking_conflict_iff.1 0 2 1 3 (by decide) (by decide)

/-- Claim C10: the cache key uses only flagKey, userId, role and environment,
so after a first isEnabled call caches its result, a second call within the
TTL with the same userId and role — but any email and custom fields — returns
the first call's result; yet a fresh evaluation does read the email: the same
flag (rollout 25) is true for email "u1" (bucket 10) and false for email
"alice" (bucket 71), contexts that differ only in email. -/
theorem c10_cache_key_ignores_email :
    (∀ (s : FFState) (flagKey env : String) (c1 c2 : FeatureFlagContext) (now1 now2 : Nat),
      c1.userId = c2.userId → c1.role = c2.role →
      cacheLookup s.cache (getCacheKey flagKey c1 env) = none →
      now2 - now1 < CACHE_TTL →
      (isEnabled (isEnabled s flagKey c1 env now1).2 flagKey c2 env now2).1 =
        (isEnabled s flagKey c1 env now1).1) ∧
    evaluateConditions c10FlagW c10CtxA = true ∧
    evaluateConditions c10FlagW c10CtxB = false ∧
    c10CtxA.userId = c10CtxB.userId ∧ c10CtxA.role = c10CtxB.role ∧
    c10CtxA.email ≠ c10CtxB.email := by
  refine ⟨?_, by decide, by decide, rfl, rfl, by decide⟩
  intro s flagKey env c1 c2 now1 now2 hu hr hmiss httl
  have hkey : getCacheKey flagKey c2 env = getCacheKey flagKey c1 env := by
    unfold getCacheKey
    rw [hu, hr]
  simp only [isEnabled, hmiss]
  simp only [hkey, cacheLookup_cacheSet_self, httl, if_pos]

/-- Witness for c10_cache_key_ignores_email: the second call with email
"alice" returns the cached result of the first call with email "u1". -/
theorem c10_cache_key_witness :
    (isEnabled (isEnabled c10StateW "email-gate" c10CtxA "production" 0).2 "email-gate"
        c10CtxB "production" 60000).1 =
      (isEnabled c10StateW "email-gate" c10CtxA "production" 0).1 :=
  c10_cache_key_ignores_email.1 c10StateW "email-gate" "production" c10CtxA c10CtxB 0 60000
    rfl rfl rfl (by decide)
